import Mathlib

/-!
Verification of the ColorSync bot's capability-token-gated role reconciler
(src/main.py) against its natural-language specification.

The Python source is shallowly embedded: pure helpers become Lean functions,
the asynchronous directory mutations (role create / edit / attach) become an
explicit trace of `DirOp` values returned alongside the result, and Python
exceptions become `Except` error values.  Machine-level 32-bit arithmetic in
the SHA-1 hash is modelled on `Nat` with explicit reduction modulo 2^32.
-/

set_option maxRecDepth 100000

namespace ColorSync

/-! ### SHA-1 (hashlib.sha1), byte-level, big-endian

`uid_hash6` in src/main.py is `hashlib.sha1(f"{uid}:{WEB_SECRET}".encode("utf-8")).hexdigest()[:6]`.
We embed SHA-1 over byte lists (`List Nat`, each element < 256 for real inputs),
with 32-bit words represented as `Nat` reduced mod `M32 = 2^32`.
-/

def M32 : Nat := 4294967296

/-- Rotate a 32-bit word left by k bits (k < 32). -/
def rotl32 (x k : Nat) : Nat :=
  ((x <<< k) % M32) ||| (x >>> (32 - k))

/-- UTF-8 encoding of one character (code point) as bytes. -/
def utf8Char (n : Nat) : List Nat :=
  if n < 128 then [n]
  else if n < 2048 then [192 ||| (n >>> 6), 128 ||| (n &&& 63)]
  else if n < 65536 then
    [224 ||| (n >>> 12), 128 ||| ((n >>> 6) &&& 63), 128 ||| (n &&& 63)]
  else
    [240 ||| (n >>> 18), 128 ||| ((n >>> 12) &&& 63),
     128 ||| ((n >>> 6) &&& 63), 128 ||| (n &&& 63)]

/-- UTF-8 bytes of a string, as natural numbers (models Python str.encode). -/
def strBytes (s : String) : List Nat :=
  s.data.flatMap (fun c => utf8Char c.toNat)

/-- Big-endian 8-byte encoding of a length-in-bits value. -/
def beBytes8 (n : Nat) : List Nat :=
  [n >>> 56 % 256, n >>> 48 % 256, n >>> 40 % 256, n >>> 32 % 256,
   n >>> 24 % 256, n >>> 16 % 256, n >>> 8 % 256, n % 256]

/-- SHA-1 padding: append 0x80, zeros to 56 mod 64, then the bit length. -/
def sha1Pad (msg : List Nat) : List Nat :=
  let len := msg.length
  let z := (120 - (len + 1) % 64) % 64
  msg ++ [128] ++ List.replicate z 0 ++ beBytes8 (len * 8)

/-- Group a byte list into big-endian 32-bit words (4 bytes each). -/
def beWords : List Nat → List Nat
  | a :: b :: c :: d :: rest => (((a * 256 + b) * 256 + c) * 256 + d) :: beWords rest
  | _ => []

/-- Split a list into chunks of 64 elements.  The fuel argument (instantiated
with the list length, which bounds the number of chunks) keeps the recursion
structural so that the kernel can evaluate it. -/
def chunks64Go : Nat → List Nat → List (List Nat)
  | _, [] => []
  | 0, _ => []
  | fuel + 1, a :: rest => ((a :: rest).take 64) :: chunks64Go fuel (rest.drop 63)

def chunks64 (l : List Nat) : List (List Nat) :=
  chunks64Go l.length l

/-- Message-schedule extension: append words 16..79. -/
def sha1ExtendLoop (w : List Nat) (i : Nat) : Nat → List Nat
  | 0 => w
  | fuel + 1 =>
    let nw := rotl32 ((w.getD (i - 3) 0) ^^^ (w.getD (i - 8) 0) ^^^
                     (w.getD (i - 14) 0) ^^^ (w.getD (i - 16) 0)) 1
    sha1ExtendLoop (w ++ [nw]) (i + 1) fuel

def sha1ExtendWords (w16 : List Nat) : List Nat :=
  sha1ExtendLoop w16 16 64

/-- One SHA-1 round: state (a,b,c,d,e), round index i, schedule word w. -/
def sha1Round (st : Nat × Nat × Nat × Nat × Nat) (i w : Nat) :
    Nat × Nat × Nat × Nat × Nat :=
  let (a, b, c, d, e) := st
  let nb := b ^^^ (M32 - 1)
  let f :=
    if i < 20 then (b &&& c) ||| (nb &&& d)
    else if i < 40 then b ^^^ c ^^^ d
    else if i < 60 then (b &&& c) ||| (b &&& d) ||| (c &&& d)
    else b ^^^ c ^^^ d
  let k :=
    if i < 20 then 1518500249
    else if i < 40 then 1859775393
    else if i < 60 then 2400959708
    else 3395469782
  let temp := (rotl32 a 5 + f + e + k + w) % M32
  (temp, a, rotl32 b 30, c, d)

/-- Process one 64-byte chunk into the running hash state. -/
def sha1Compress (h : Nat × Nat × Nat × Nat × Nat) (chunk : List Nat) :
    Nat × Nat × Nat × Nat × Nat :=
  let ws := sha1ExtendWords (beWords chunk)
  let (h0, h1, h2, h3, h4) := h
  let (a, b, c, d, e) :=
    ws.enum.foldl (fun st iw => sha1Round st iw.1 iw.2) (h0, h1, h2, h3, h4)
  ((h0 + a) % M32, (h1 + b) % M32, (h2 + c) % M32, (h3 + d) % M32, (h4 + e) % M32)

def sha1Init : Nat × Nat × Nat × Nat × Nat :=
  (1732584193, 4023233417, 2562383102, 271733878, 3285377520)

/-- The five 32-bit words of the SHA-1 digest of a byte message. -/
def sha1Words (msg : List Nat) : Nat × Nat × Nat × Nat × Nat :=
  (chunks64 (sha1Pad msg)).foldl sha1Compress sha1Init

/-- Lowercase hex digit for a nibble (hashlib hexdigest alphabet). -/
def hexDig (n : Nat) : Char :=
  ("0123456789abcdef".data).getD n '0'

/-- Big-endian 8-hex-character rendering of one 32-bit word. -/
def wordHex (w : Nat) : String :=
  ⟨[hexDig (w >>> 28 &&& 15), hexDig (w >>> 24 &&& 15),
    hexDig (w >>> 20 &&& 15), hexDig (w >>> 16 &&& 15),
    hexDig (w >>> 12 &&& 15), hexDig (w >>> 8 &&& 15),
    hexDig (w >>> 4 &&& 15), hexDig (w &&& 15)]⟩

/-- hashlib.sha1(msg).hexdigest(): 40 lowercase hex characters. -/
def sha1Hex (msg : List Nat) : String :=
  let (h0, h1, h2, h3, h4) := sha1Words msg
  wordHex h0 ++ wordHex h1 ++ wordHex h2 ++ wordHex h3 ++ wordHex h4

/-- src/main.py uid_hash6: first 6 hex chars of sha1 of "uid:secret".
The workspace secret WEB_SECRET is passed explicitly. -/
def uid_hash6 (secret : String) (uid : Nat) : String :=
  ⟨(sha1Hex (strBytes (toString uid ++ ":" ++ secret))).data.take 6⟩

/-! ### Python string helpers -/

/-- Python str.strip character class (ASCII whitespace; Python also strips some
further Unicode spaces, which no claim exercises). -/
def pyWS (c : Char) : Bool :=
  c == ' ' || c == '\t' || c == '\n' || c == '\x0d' || c == '\x0b' || c == '\x0c'

def pyStripList (l : List Char) : List Char :=
  ((l.dropWhile pyWS).reverse.dropWhile pyWS).reverse

/-- Python str.strip(). -/
def pyStrip (s : String) : String :=
  ⟨pyStripList s.data⟩

/-- Python str.lstrip("#"). -/
def pyLstripHash (s : String) : String :=
  ⟨s.data.dropWhile (fun c => c == '#')⟩

/-- Python slicing s[:n]. -/
def strTake (s : String) (n : Nat) : String :=
  ⟨s.data.take n⟩

/-- Python str.endswith(t). -/
def strEndsWith (s t : String) : Bool :=
  t.data.isSuffixOf s.data

/-- Python str.lower() (ASCII; role names in the claims are ASCII). -/
def pyLower (s : String) : String :=
  ⟨s.data.map Char.toLower⟩

/-! ### Regex model for the two suffix patterns

src/main.py:
  ID_SUFFIX_PATTERN   = re.compile(r"-([0-9]\x7b15,25\x7d)$")
  HASH_SUFFIX_PATTERN = re.compile(r"-([0-9a-f]\x7b6\x7d)$", re.I)

Both patterns have the shape "-(cls-run)$".  For such a pattern, re.search
finds a match exactly when, in the string (or the string with a single final
newline set aside, since a bare "$" also matches just before a terminating
newline), the maximal run of cls-characters at the end has an admissible
length k and is immediately preceded by a literal "-": any shorter candidate
run would have to be preceded by a cls-character rather than "-".
re.sub(pattern, "") then removes the "-" together with the run (keeping the
set-aside newline).
-/

/-- Characters matched by `[0-9a-f]` under re.I. -/
def hexCharCI (c : Char) : Bool :=
  c.isDigit || ('a' ≤ c && c ≤ 'f') || ('A' ≤ c && c ≤ 'F')

/-- Split off a single terminating newline, as "$" treats it. -/
def dollarSplit (l : List Char) : List Char × List Char :=
  match l.getLast? with
  | some c => if c = '\n' then (l.dropLast, ['\n']) else (l, [])
  | none => (l, [])

/-- Length of the matched cls-run for a pattern "-(cls-run)$" with run length
bounds lo..hi, or none if there is no match. -/
def suffixRunMatch (cls : Char → Bool) (lo hi : Nat) (l : List Char) : Option Nat :=
  if lo ≤ ((dollarSplit l).1.reverse.takeWhile cls).length ∧
      ((dollarSplit l).1.reverse.takeWhile cls).length ≤ hi ∧
      ((dollarSplit l).1.reverse.drop
        ((dollarSplit l).1.reverse.takeWhile cls).length).head? = some '-'
  then some ((dollarSplit l).1.reverse.takeWhile cls).length
  else none

/-- re.sub(pattern, "", s) for a "-(cls-run)$" pattern that matches with run
length k: everything before the "-" plus the set-aside newline, if any. -/
def suffixRunRemove (l : List Char) (k : Nat) : List Char :=
  ((dollarSplit l).1.reverse.drop (k + 1)).reverse ++ (dollarSplit l).2

/-- ID_SUFFIX_PATTERN.search (legacy scheme, trailing "-<15-25 digits>"). -/
def idSearch (l : List Char) : Option Nat :=
  suffixRunMatch Char.isDigit 15 25 l

/-- HASH_SUFFIX_PATTERN.search (current scheme, trailing "-<6 hex chars>"). -/
def hashSearch (l : List Char) : Option Nat :=
  suffixRunMatch hexCharCI 6 6 l

/-! ### Naming (src/main.py pretty_role_name, new_personal_name) -/

/-- src/main.py pretty_role_name: strip a recognized "-<id>" / "-<hash6>"
suffix for display, trying the legacy pattern first. -/
def pretty_role_name (name : String) : String :=
  match idSearch name.data with
  | some k => ⟨suffixRunRemove name.data k⟩
  | none =>
    match hashSearch name.data with
    | some k => ⟨suffixRunRemove name.data k⟩
    | none => name

/-- src/main.py new_personal_name: strip the user-supplied base, trim it so
that the final name fits in 100 characters, and append "-<hash6>". -/
def new_personal_name (secret : String) (base : String) (uid : Nat) : String :=
  let suffix := "-" ++ uid_hash6 secret uid
  let base1 := pyStrip base
  let maxBase := 100 - suffix.length
  (if base1.length > maxBase then strTake base1 maxBase else base1) ++ suffix

/-! ### Data model

The directory (Discord guild) state visible to the reconciler.  A role's
comparison against the bot's top role is modelled through its rank position,
following the data model of the spec (rankPosition, higher = more senior);
the comparison operator itself lives in the external discord library, not in
src/.  The directory mutations the engine issues are recorded as a `DirOp`
trace instead of being performed. -/

structure Role where
  id : Nat
  name : String
  colour : Int
  rank : Nat
deriving DecidableEq

structure Member where
  id : Nat
  roles : List Role
deriving DecidableEq

structure Guild where
  gid : Nat
  roles : List Role
  members : List Member
  botManageRoles : Bool
  botTopRank : Nat
  freshId : Nat
deriving DecidableEq

structure BotState where
  guilds : List Guild
deriving DecidableEq

structure Config where
  secret : String
  protectedNames : List String
  protectedIds : List Nat
deriving DecidableEq

inductive AppError where
  | noPerm
  | hierarchy
  | protectedRole
  | notFound
  | badFormat
deriving DecidableEq

/-- Directory mutations (remote Discord calls) issued by the engine. -/
inductive DirOp where
  | createRole (name : String) (colour : Int) (permsNone hoist mentionable : Bool)
  | editColour (roleId : Nat) (colour : Int)
  | editName (roleId : Nat) (name : String)
  | editPosition (roleId : Nat) (pos : Nat)
  | addRole (memberId roleId : Nat)
deriving DecidableEq

def DirOp.isEditPosition : DirOp → Bool
  | .editPosition _ _ => true
  | _ => false

/-! ### HierarchyGuard (src/main.py is_protected, ensure_manageable) -/

/-- src/main.py is_protected: id or (case-sensitive) name in the static
protection lists. -/
def is_protected (cfg : Config) (r : Role) : Bool :=
  cfg.protectedIds.contains r.id || cfg.protectedNames.contains r.name

/-- src/main.py ensure_manageable: capability, then hierarchy, then
protection, each raising a RuntimeError (modelled as an error value). -/
def ensure_manageable (cfg : Config) (g : Guild) (r : Role) : Except AppError Unit :=
  if !g.botManageRoles then .error .noPerm
  else if g.botTopRank ≤ r.rank then .error .hierarchy
  else if is_protected cfg r then .error .protectedRole
  else .ok ()

/-! ### RoleLocator (src/main.py find_personal_role) -/

/-- One role-name test from the find_personal_role loop body: the current
hash suffix is tried first, then the legacy id suffix; either returns the
role. -/
def roleMatchesUser (secret : String) (uid : Nat) (name : String) : Bool :=
  strEndsWith name ("-" ++ uid_hash6 secret uid) ||
  strEndsWith name ("-" ++ toString uid)

/-- src/main.py find_personal_role: scan the member's own roles, then the
whole guild role list. -/
def find_personal_role (secret : String) (g : Guild) (m : Member) : Option Role :=
  match m.roles.find? (fun r => roleMatchesUser secret m.id r.name) with
  | some r => some r
  | none => g.roles.find? (fun r => roleMatchesUser secret m.id r.name)

/-! ### ReconcileEngine (src/main.py create_or_update_personal_role,
rename_personal_role, migrate_personal_role_name and the color_rename
command-side format check) -/

def memberHasRole (m : Member) (rid : Nat) : Bool :=
  m.roles.any (fun r => r.id == rid)

/-- src/main.py create_or_update_personal_role: create a fresh
"NameColor-<hash6>" role when none is found, otherwise guard and recolour;
in both cases attach the role when the member does not already carry it. -/
def create_or_update_personal_role (cfg : Config) (g : Guild) (m : Member)
    (rgb : Int) : Except AppError (Role × List DirOp) :=
  if !g.botManageRoles then .error .noPerm
  else
    match find_personal_role cfg.secret g m with
    | none =>
      let roleName := new_personal_name cfg.secret "NameColor" m.id
      let role : Role := { id := g.freshId, name := roleName, colour := rgb, rank := 1 }
      let ops := [DirOp.createRole roleName rgb true false false] ++
        (if memberHasRole m role.id then [] else [DirOp.addRole m.id role.id])
      .ok (role, ops)
    | some r =>
      match ensure_manageable cfg g r with
      | .error e => .error e
      | .ok _ =>
        let ops := [DirOp.editColour r.id rgb] ++
          (if memberHasRole m r.id then [] else [DirOp.addRole m.id r.id])
        .ok ({ r with colour := rgb }, ops)

/-- src/main.py rename_personal_role: locate, guard, recompose, edit name. -/
def rename_personal_role (cfg : Config) (g : Guild) (m : Member)
    (newBase : String) : Except AppError (Role × List DirOp) :=
  match find_personal_role cfg.secret g m with
  | none => .error .notFound
  | some r =>
    match ensure_manageable cfg g r with
    | .error e => .error e
    | .ok _ =>
      let newName := new_personal_name cfg.secret newBase m.id
      .ok ({ r with name := newName }, [DirOp.editName r.id newName])

/-- src/main.py color_rename_cmd body: reject a base that already carries a
suffix-shaped ending, then delegate to rename_personal_role. -/
def color_rename (cfg : Config) (g : Guild) (m : Member) (name : String) :
    Except AppError (Role × List DirOp) :=
  if (idSearch name.data).isSome || (hashSearch name.data).isSome then
    .error .badFormat
  else rename_personal_role cfg g m name

/-- src/main.py migrate_personal_role_name: rewrite a legacy "-<id>" name to
the current "-<hash6>" scheme; otherwise leave the role untouched. -/
def migrate_personal_role_name (cfg : Config) (g : Guild) (m : Member) :
    Except AppError (Option (Role × List DirOp)) :=
  match find_personal_role cfg.secret g m with
  | none => .ok none
  | some r =>
    if strEndsWith r.name ("-" ++ toString m.id) then
      let vis := pretty_role_name r.name
      let newName := new_personal_name cfg.secret
        (if vis = "" then "NameColor" else vis) m.id
      match ensure_manageable cfg g r with
      | .error e => .error e
      | .ok _ => .ok (some ({ r with name := newName }, [DirOp.editName r.id newName]))
    else .ok (some (r, []))

/-! ### TokenCodec -/

structure Identity where
  g : Nat
  u : Nat
deriving DecidableEq

deriving instance DecidableEq for Except

/-- Decimal digits of a natural number, least significant first.  The fuel
argument (instantiated with the number itself, an upper bound on the digit
count) keeps the recursion structural. -/
def natDigitsGo : Nat → Nat → List Nat
  | _, 0 => []
  | 0, _ => []
  | fuel + 1, n + 1 => ((n + 1) % 10) :: natDigitsGo fuel ((n + 1) / 10)

def natDigits (n : Nat) : List Nat :=
  natDigitsGo n n

/-- Value of a least-significant-first digit list. -/
def ofDigitsNat : List Nat → Nat
  | [] => 0
  | d :: rest => d + 10 * ofDigitsNat rest

/-- Decimal character encoding of a natural number (most significant first). -/
def encNat (n : Nat) : List Char :=
  (natDigits n).reverse.map hexDig

def charDigitVal (c : Char) : Nat :=
  c.toNat - 48

def decNatChars (l : List Char) : Nat :=
  ofDigitsNat ((l.map charDigitVal).reverse)

/-- Serialized token payload: "<g>,<u>". -/
def encodeIdentity (i : Identity) : List Char :=
  encNat i.g ++ ',' :: encNat i.u

def decodeIdentity (l : List Char) : Option Identity :=
  let gpart := l.takeWhile (fun c => c != ',')
  match l.dropWhile (fun c => c != ',') with
  | ',' :: upart => some ⟨decNatChars gpart, decNatChars upart⟩
  | _ => none

/-- Modelled from the spec: the TokenCodec (signer.dumps in src/main.py) is
the itsdangerous URLSafeSerializer, library code not under src/.  Following
the spec — "sign(identity) -> token: deterministic, reversible only with the
secret; output is opaque and URL-safe" — the token is the serialized
(workspace, user) payload followed by a keyed-hash signature over the payload
and the secret. -/
def sign (secret : String) (i : Identity) : String :=
  let body : String := ⟨encodeIdentity i⟩
  body ++ "." ++ sha1Hex (strBytes (secret ++ "|" ++ body))

/-- Modelled from the spec: the TokenCodec verifier (signer.loads in
src/main.py, itsdangerous library code not under src/).  "verify(token) ->
identity: fails with InvalidSignature if the token was not produced by sign
with the current secret, or is structurally malformed."  Failure is the none
value. -/
def verify (secret : String) (t : String) : Option Identity :=
  match t.data.dropWhile (fun c => c != '.') with
  | c :: sig =>
    if c = '.' then
      if (⟨sig⟩ : String) =
          sha1Hex (strBytes (secret ++ "|" ++
            (⟨t.data.takeWhile (fun c => c != '.')⟩ : String)))
      then decodeIdentity (t.data.takeWhile (fun c => c != '.'))
      else none
    else none
  | [] => none

/-! ### Python int(s, 16) -/

/-- Hex digit value, models the digits accepted by int(s, 16). -/
def hexVal? (c : Char) : Option Nat :=
  if c.isDigit then some (c.toNat - 48)
  else if 'a' ≤ c && c ≤ 'f' then some (c.toNat - 87)
  else if 'A' ≤ c && c ≤ 'F' then some (c.toNat - 55)
  else none

/-- Digit tail of an int(s, 16) literal: single underscores are allowed
between digits only. -/
def hexCore : List Char → Nat → Option Nat
  | [], acc => some acc
  | '_' :: c :: rest, acc =>
    match hexVal? c with
    | some v => hexCore rest (acc * 16 + v)
    | none => none
  | ['_'], _ => none
  | c :: rest, acc =>
    match hexVal? c with
    | some v => hexCore rest (acc * 16 + v)
    | none => none

/-- Python int(s, 16): optional surrounding whitespace, optional sign,
optional 0x/0X prefix (an underscore may follow the prefix), then at least
one hex digit; ValueError is the none value. -/
def pyIntBase16 (s : String) : Option Int :=
  let l := (pyStrip s).data
  let sl : Int × List Char :=
    match l with
    | '+' :: rest => (1, rest)
    | '-' :: rest => (-1, rest)
    | _ => (1, l)
  let body : List Char :=
    match sl.2 with
    | '0' :: 'x' :: '_' :: c :: rest => c :: rest
    | '0' :: 'x' :: rest => rest
    | '0' :: 'X' :: '_' :: c :: rest => c :: rest
    | '0' :: 'X' :: rest => rest
    | l2 => l2
  match body with
  | [] => none
  | c :: rest =>
    match hexVal? c with
    | none => none
    | some v => (hexCore rest v).map (fun n => sl.1 * (n : Int))

/-! ### The POST /apply handler (src/main.py apply) -/

structure ApplyResponse where
  ok : Bool
  msg : String
  status : Nat
  roleName : Option String
  display : Option String
deriving DecidableEq

/-- RuntimeError messages raised inside the engine (src/main.py). -/
def errText : AppError → String
  | .noPerm => "Botに \x27Manage Roles\x27 権限がありません。"
  | .hierarchy => "Botのロール位置が対象ロール以下です。サーバー設定でBotロールを上に移動してください。"
  | .protectedRole => "保護対象のロールは変更できません。"
  | .notFound => "あなたの個人ロールが見つかりません。まずは /color_web で作成してね。"
  | .badFormat => "末尾の -<何か> は付けないでOK！純粋なロール名だけ入れてね。"

def getGuild (st : BotState) (gid : Nat) : Option Guild :=
  st.guilds.find? (fun g => g.gid == gid)

def getMember (g : Guild) (uid : Nat) : Option Member :=
  g.members.find? (fun m => m.id == uid)

/-- src/main.py apply (POST /apply): strip the token and the hex value,
verify the token, resolve guild and member, parse the colour with
int(hexv, 16), and run the engine.  The response is paired with the trace of
directory mutations issued. -/
def apply (cfg : Config) (st : BotState) (t hex : String) :
    ApplyResponse × List DirOp :=
  let token := pyStrip t
  let hexv := pyStrip (pyLstripHash hex)
  match verify cfg.secret token with
  | none => (⟨false, "invalid token", 400, none, none⟩, [])
  | some i =>
    match getGuild st i.g with
    | none => (⟨false, "guild not found", 404, none, none⟩, [])
    | some g =>
      match getMember g i.u with
      | none =>
        -- guild.fetch_member raising discord.NotFound lands in the generic
        -- handler; the embedded exception text is elided.
        (⟨false, "apply error: member not found", 500, none, none⟩, [])
      | some m =>
        match pyIntBase16 hexv with
        | none => (⟨false, "invalid hex", 400, none, none⟩, [])
        | some rgb =>
          match create_or_update_personal_role cfg g m rgb with
          | .error e => (⟨false, "apply error: " ++ errText e, 500, none, none⟩, [])
          | .ok (role, ops) =>
            (⟨true, "applied #" ++ pyLower hexv, 200, some role.name,
              some (pretty_role_name role.name)⟩, ops)

/-! ## Supporting lemmas -/

theorem str_data_append (s t : String) : (s ++ t).data = s.data ++ t.data := by
  cases s
  cases t
  rfl

theorem str_ext {s t : String} (h : s.data = t.data) : s = t := by
  cases s
  cases t
  exact congrArg String.mk h

theorem str_length_eq (s : String) : s.length = s.data.length := rfl

/-- The hexdigest alphabet. -/
def hexChars : List Char := "0123456789abcdef".data

theorem hexDig_mem (n : Nat) : hexDig n ∈ hexChars := by
  rcases Nat.lt_or_ge n 16 with h | h
  · interval_cases n <;> decide
  · have hlen : ("0123456789abcdef".data).length ≤ n := by
      simpa using h
    have : hexDig n = '0' := by
      unfold hexDig
      rw [List.getD_eq_getElem?_getD, List.getElem?_eq_none hlen]
      rfl
    rw [this]
    decide

theorem hexChars_spec : ∀ c ∈ hexChars,
    hexCharCI c = true ∧ c ≠ '\n' ∧ c ≠ '-' ∧ c ≠ '.' ∧ c ≠ ',' := by
  decide

theorem wordHex_data (w : Nat) : (wordHex w).data =
    [hexDig (w >>> 28 &&& 15), hexDig (w >>> 24 &&& 15),
     hexDig (w >>> 20 &&& 15), hexDig (w >>> 16 &&& 15),
     hexDig (w >>> 12 &&& 15), hexDig (w >>> 8 &&& 15),
     hexDig (w >>> 4 &&& 15), hexDig (w &&& 15)] := rfl

theorem wordHex_length (w : Nat) : (wordHex w).data.length = 8 := rfl

theorem wordHex_slength (w : Nat) : (wordHex w).length = 8 := rfl

theorem wordHex_chars (w : Nat) : ∀ c ∈ (wordHex w).data, c ∈ hexChars := by
  intro c hc
  rw [wordHex_data] at hc
  simp only [List.mem_cons, List.not_mem_nil, or_false] at hc
  rcases hc with h | h | h | h | h | h | h | h <;> (subst h; exact hexDig_mem _)

theorem sha1Hex_length (m : List Nat) : (sha1Hex m).data.length = 40 := by
  unfold sha1Hex
  rcases sha1Words m with ⟨h0, h1, h2, h3, h4⟩
  simp [str_data_append, wordHex_length, wordHex_slength]

theorem sha1Hex_chars (m : List Nat) : ∀ c ∈ (sha1Hex m).data, c ∈ hexChars := by
  unfold sha1Hex
  rcases sha1Words m with ⟨h0, h1, h2, h3, h4⟩
  intro c hc
  simp only [str_data_append, List.mem_append] at hc
  rcases hc with ((((h | h) | h) | h) | h) <;> exact wordHex_chars _ c h

theorem uid_hash6_data (secret : String) (uid : Nat) :
    (uid_hash6 secret uid).data =
      (sha1Hex (strBytes (toString uid ++ ":" ++ secret))).data.take 6 := rfl

theorem uid_hash6_length (secret : String) (uid : Nat) :
    (uid_hash6 secret uid).data.length = 6 := by
  rw [uid_hash6_data, List.length_take, sha1Hex_length]
  decide

theorem uid_hash6_slength (secret : String) (uid : Nat) :
    (uid_hash6 secret uid).length = 6 :=
  uid_hash6_length secret uid

theorem uid_hash6_chars (secret : String) (uid : Nat) :
    ∀ c ∈ (uid_hash6 secret uid).data, c ∈ hexChars := by
  intro c hc
  rw [uid_hash6_data] at hc
  exact sha1Hex_chars _ c (List.take_subset _ _ hc)

theorem dash_hash_data (secret : String) (uid : Nat) :
    ("-" ++ uid_hash6 secret uid).data = '-' :: (uid_hash6 secret uid).data := by
  rw [str_data_append]
  rfl

theorem dash_hash_length (secret : String) (uid : Nat) :
    ("-" ++ uid_hash6 secret uid).length = 7 := by
  rw [str_length_eq, dash_hash_data]
  simp [uid_hash6_length, uid_hash6_slength]

/-- The body of new_personal_name, with the suffix length evaluated. -/
theorem new_personal_name_eq (secret base : String) (uid : Nat) :
    new_personal_name secret base uid =
      (if (pyStrip base).length > 93 then strTake (pyStrip base) 93
       else pyStrip base) ++ ("-" ++ uid_hash6 secret uid) := by
  unfold new_personal_name
  simp only [dash_hash_length]

/-! ## C3: the compose formula -/

theorem new_personal_name_take93 (secret base : String) (uid : Nat) :
    new_personal_name secret base uid =
      strTake (pyStrip base) 93 ++ "-" ++ uid_hash6 secret uid := by
  rw [new_personal_name_eq]
  apply str_ext
  simp only [str_data_append]
  rcases Nat.lt_or_ge 93 ((pyStrip base).length) with h | h
  · rw [if_pos h]
    simp [strTake, List.append_assoc]
  · rw [if_neg (by omega)]
    have : strTake (pyStrip base) 93 = pyStrip base := by
      apply str_ext
      exact List.take_of_length_le h
    rw [this, List.append_assoc]

/-- Claim C3 (compose), amended: the base is stripped of surrounding
whitespace and cut to at most 93 = 100 - 7 characters — 100 minus the length
of "-" plus the 6-character suffix, not 100 minus the suffix length alone —
before the hyphen and the current suffix are appended. -/
theorem claim_C3_amended (secret base : String) (uid : Nat) :
    new_personal_name secret base uid =
      strTake (pyStrip base) 93 ++ "-" ++ uid_hash6 secret uid :=
  new_personal_name_take93 secret base uid

/-- Claim C3 as stated is false: compose strips the base (" x " becomes "x")
and truncates to 100 minus the length of the hyphenated suffix (93), not to
100 minus the 6-character suffix length (94): a 94-character base loses its
last character. -/
theorem claim_C3_counterexample :
    new_personal_name "change-me" " x " 42 ≠
      strTake " x " (100 - (uid_hash6 "change-me" 42).length) ++ "-" ++
        uid_hash6 "change-me" 42 ∧
    new_personal_name "change-me" (⟨List.replicate 94 'a'⟩ : String) 42 ≠
      strTake (⟨List.replicate 94 'a'⟩ : String)
          (100 - (uid_hash6 "change-me" 42).length) ++ "-" ++
        uid_hash6 "change-me" 42 := by
  decide

/-! ## C9: composed names fit in 100 characters and end with the suffix -/

/-- Claim C9: for every secret, base (of any length) and userId, the composed
name has length at most 100 and ends with "-" followed by the current
6-character suffix. -/
theorem claim_C9_compose_bounds (secret base : String) (uid : Nat) :
    (new_personal_name secret base uid).length ≤ 100 ∧
    strEndsWith (new_personal_name secret base uid)
      ("-" ++ uid_hash6 secret uid) = true := by
  rw [new_personal_name_eq]
  constructor
  · rw [str_length_eq, str_data_append, List.length_append, dash_hash_data]
    have hsuf : ('-' :: (uid_hash6 secret uid).data).length = 7 := by
      simp [uid_hash6_length, uid_hash6_slength]
    rw [hsuf]
    rcases Nat.lt_or_ge 93 ((pyStrip base).length) with h | h
    · rw [if_pos h]
      have : (strTake (pyStrip base) 93).data.length ≤ 93 := by
        simp only [strTake]
        exact List.length_take_le 93 (pyStrip base).data
      omega
    · rw [if_neg (by omega)]
      rw [str_length_eq] at h
      omega
  · unfold strEndsWith
    rw [str_data_append, List.isSuffixOf_iff_suffix]
    exact List.suffix_append _ _

/-! ## C2: the hierarchy guard -/

/-- Claim C2 (HierarchyGuard.check), amended: the guard fails exactly when
the bot lacks the Manage Roles capability, or the target rank is at least the
bot top rank, or the target id or target name — the name compared
case-SENSITIVELY — is in the protection lists; and the checks run in the
order capability, rank, protection (so a protected senior role reports the
rank error).  The four equivalences below pin down the result in every case;
in particular the hierarchy rejection depends only on the capability and the
ranks, not on the role name or colour. -/
theorem claim_C2_amended (cfg : Config) (g : Guild) (r : Role) :
    (ensure_manageable cfg g r = .ok () ↔
      g.botManageRoles = true ∧ r.rank < g.botTopRank ∧
      (cfg.protectedIds.contains r.id || cfg.protectedNames.contains r.name) = false) ∧
    (ensure_manageable cfg g r = .error .noPerm ↔ g.botManageRoles = false) ∧
    (ensure_manageable cfg g r = .error .hierarchy ↔
      g.botManageRoles = true ∧ g.botTopRank ≤ r.rank) ∧
    (ensure_manageable cfg g r = .error .protectedRole ↔
      g.botManageRoles = true ∧ r.rank < g.botTopRank ∧
      (cfg.protectedIds.contains r.id || cfg.protectedNames.contains r.name) = true) := by
  unfold ensure_manageable is_protected
  cases hm : g.botManageRoles
  · simp
  · simp only [Bool.not_true, Bool.false_eq_true, if_false]
    rcases Nat.lt_or_ge r.rank g.botTopRank with hr | hr
    · rw [if_neg (by omega)]
      cases hp : cfg.protectedIds.contains r.id || cfg.protectedNames.contains r.name <;>
        simp_all
    · rw [if_pos hr]
      simp_all

def cfgProt : Config := ⟨"change-me", ["ADMIN"], []⟩

def guildG : Guild := ⟨1, [], [], true, 10, 99⟩

/-- Claim C2 as stated is false on two counts: (a) the protected-name
comparison is case-sensitive — a role named "admin" is mutable although
"ADMIN" is protected; (b) the rank check runs before the protection check —
a protected role at or above the bot rank is reported as a hierarchy
failure, not a protection failure. -/
theorem claim_C2_counterexample :
    ensure_manageable cfgProt guildG ⟨5, "admin", 0, 3⟩ = .ok () ∧
    ensure_manageable cfgProt guildG ⟨6, "ADMIN", 0, 10⟩ = .error .hierarchy := by
  decide

/-! ## C8: the token codec round-trip -/

theorem ofDigitsNat_natDigitsGo :
    ∀ (fuel n : Nat), n ≤ fuel → ofDigitsNat (natDigitsGo fuel n) = n := by
  intro fuel
  induction fuel with
  | zero =>
    intro n hn
    interval_cases n
    rfl
  | succ f ih =>
    intro n hn
    match n with
    | 0 => rfl
    | m + 1 =>
      show ofDigitsNat (((m + 1) % 10) :: natDigitsGo f ((m + 1) / 10)) = m + 1
      have hd : (m + 1) / 10 ≤ f := by omega
      show (m + 1) % 10 + 10 * ofDigitsNat (natDigitsGo f ((m + 1) / 10)) = m + 1
      rw [ih _ hd]
      omega

theorem mem_natDigitsGo_lt :
    ∀ (fuel n d : Nat), d ∈ natDigitsGo fuel n → d < 10 := by
  intro fuel
  induction fuel with
  | zero =>
    intro n d hd
    match n with
    | 0 => simp [natDigitsGo] at hd
    | m + 1 => simp [natDigitsGo] at hd
  | succ f ih =>
    intro n d hd
    match n with
    | 0 => simp [natDigitsGo] at hd
    | m + 1 =>
      rcases List.mem_cons.1 hd with h | h
      · subst h
        omega
      · exact ih _ _ h

theorem charDigitVal_hexDig {d : Nat} (hd : d < 10) :
    charDigitVal (hexDig d) = d := by
  interval_cases d <;> decide

theorem map_digit_roundtrip :
    ∀ (l : List Nat), (∀ d ∈ l, d < 10) →
      l.map (fun d => charDigitVal (hexDig d)) = l := by
  intro l
  induction l with
  | nil =>
    intro _
    rfl
  | cons a t ih =>
    intro h
    simp only [List.map_cons]
    rw [charDigitVal_hexDig (h a (List.mem_cons_self a t)),
      ih (fun d hd => h d (List.mem_cons_of_mem a hd))]

theorem decNatChars_encNat (n : Nat) : decNatChars (encNat n) = n := by
  unfold decNatChars encNat
  rw [List.map_map]
  have hmap : (natDigits n).reverse.map (charDigitVal ∘ hexDig) =
      (natDigits n).reverse := by
    have := map_digit_roundtrip (natDigits n).reverse
      (fun d hd => mem_natDigitsGo_lt _ _ _ (List.mem_reverse.1 hd))
    simpa [Function.comp] using this
  rw [hmap, List.reverse_reverse]
  exact ofDigitsNat_natDigitsGo n n (Nat.le_refl n)

theorem encNat_chars (n : Nat) : ∀ c ∈ encNat n, c ∈ hexChars := by
  intro c hc
  unfold encNat at hc
  rcases List.mem_map.1 hc with ⟨d, _, hd⟩
  subst hd
  exact hexDig_mem d

theorem takeWhile_append_stop {p : Char → Bool} {l r : List Char} {x : Char}
    (hl : ∀ c ∈ l, p c = true) (hx : p x = false) :
    ((l ++ x :: r).takeWhile p) = l := by
  rw [List.takeWhile_append_of_pos hl, List.takeWhile_cons, hx]
  simp

theorem dropWhile_append_stop {p : Char → Bool} {l r : List Char} {x : Char}
    (hl : ∀ c ∈ l, p c = true) (hx : p x = false) :
    ((l ++ x :: r).dropWhile p) = x :: r := by
  rw [List.dropWhile_append_of_pos hl, List.dropWhile_cons, hx]
  simp

theorem decodeIdentity_encodeIdentity (i : Identity) :
    decodeIdentity (encodeIdentity i) = some i := by
  obtain ⟨g, u⟩ := i
  unfold decodeIdentity encodeIdentity
  have hg : ∀ c ∈ encNat g, (c != ',') = true := by
    intro c hc
    have := (hexChars_spec c (encNat_chars g c hc)).2.2.2.2
    simpa using this
  rw [takeWhile_append_stop hg (by decide), dropWhile_append_stop hg (by decide)]
  simp [decNatChars_encNat]

/-- Claim C8: verifying a token signed with the same secret returns exactly
the identity that was signed.  (The token codec itself is the itsdangerous
library, modelled from the spec; the payload round-trip through the handler
int conversions is preserved.) -/
theorem claim_C8_token_roundtrip (secret : String) (i : Identity) :
    verify secret (sign secret i) = some i := by
  have hdata : (sign secret i).data = encodeIdentity i ++ '.' ::
      (sha1Hex (strBytes (secret ++ "|" ++ (⟨encodeIdentity i⟩ : String)))).data := by
    show ((⟨encodeIdentity i⟩ : String) ++ "." ++
      sha1Hex (strBytes (secret ++ "|" ++ (⟨encodeIdentity i⟩ : String)))).data = _
    rw [str_data_append, str_data_append, List.append_assoc]
    rfl
  have henc : ∀ c ∈ encodeIdentity i, (c != '.') = true := by
    intro c hc
    unfold encodeIdentity at hc
    rcases List.mem_append.1 hc with h | h
    · have := (hexChars_spec c (encNat_chars i.g c h)).2.2.2.1
      simpa using this
    · rcases List.mem_cons.1 h with h1 | h1
      · subst h1
        decide
      · have := (hexChars_spec c (encNat_chars i.u c h1)).2.2.2.1
        simpa using this
  have hmk : ∀ s : String, (⟨s.data⟩ : String) = s := by
    intro s
    cases s
    rfl
  unfold verify
  rw [hdata, takeWhile_append_stop henc (by decide),
    dropWhile_append_stop henc (by decide)]
  split
  · rename_i c sig heq
    injection heq with h1 h2
    subst h1
    subst h2
    rw [if_pos rfl, hmk, if_pos rfl]
    exact decodeIdentity_encodeIdentity i
  · rename_i heq
    simp at heq

/-! ## C6: the role locator -/

/-- A name matching the current scheme (claim wording). -/
def nameMatchesCurrent (secret : String) (uid : Nat) (name : String) : Bool :=
  strEndsWith name ("-" ++ uid_hash6 secret uid)

/-- A name matching the legacy scheme (claim wording). -/
def nameMatchesLegacy (uid : Nat) (name : String) : Bool :=
  strEndsWith name ("-" ++ toString uid)

/-- RoleLocator.find as the claim states it: scan the currently assigned
resources for a name matching either encoding (the current scheme checked
first), and only if none matches there, scan the full workspace resource
list; return the first match encountered, or none. -/
def specRoleLocatorFind (secret : String) (g : Guild) (m : Member) : Option Role :=
  let matchesEither := fun (r : Role) =>
    nameMatchesCurrent secret m.id r.name || nameMatchesLegacy m.id r.name
  match (m.roles.filter matchesEither).head? with
  | some r => some r
  | none => (g.roles.filter matchesEither).head?

theorem find_personal_role_eq_spec (secret : String) (g : Guild) (m : Member) :
    find_personal_role secret g m = specRoleLocatorFind secret g m := by
  unfold find_personal_role specRoleLocatorFind
  simp only [List.filter_head?]
  rfl

/-- Claim C6: find_personal_role scans the member's assigned roles first,
falls back to the full guild list only when no assigned role matches either
encoding, and returns the first match encountered (or none). -/
theorem claim_C6_locator (secret : String) (g : Guild) (m : Member) :
    find_personal_role secret g m = specRoleLocatorFind secret g m :=
  find_personal_role_eq_spec secret g m

/-! ## C7: legacy-name migration -/

/-- migrateLegacyName as the claim states it: locate the resource (none when
absent); when the located name carries the legacy suffix, recompute the
visible base, recompose under the current codec, run the guard, and edit the
name; otherwise return the resource unchanged with no edit. -/
def specMigrateLegacyName (cfg : Config) (g : Guild) (m : Member) :
    Except AppError (Option (Role × List DirOp)) :=
  match specRoleLocatorFind cfg.secret g m with
  | none => .ok none
  | some r =>
    if nameMatchesLegacy m.id r.name then
      match ensure_manageable cfg g r with
      | .error e => .error e
      | .ok _ =>
        let vis := pretty_role_name r.name
        let newName := new_personal_name cfg.secret
          (if vis = "" then "NameColor" else vis) m.id
        .ok (some ({ r with name := newName }, [DirOp.editName r.id newName]))
    else .ok (some (r, []))

/-- Claim C7: migrate_personal_role_name returns none when no resource
exists, leaves a current-codec name untouched issuing no edit, and rewrites
a legacy-suffixed name (guarded) to the recomposed current-codec name. -/
theorem claim_C7_migration (cfg : Config) (g : Guild) (m : Member) :
    migrate_personal_role_name cfg g m = specMigrateLegacyName cfg g m := by
  unfold migrate_personal_role_name specMigrateLegacyName
  rw [← find_personal_role_eq_spec]
  rfl

/-! ## Concrete fixtures for counterexamples and witnesses -/

def cfg0 : Config := ⟨"change-me", [], []⟩

def member42 : Member := ⟨42, []⟩

def guild1 : Guild := ⟨1, [], [member42], true, 10, 99⟩

def st0 : BotState := ⟨[guild1]⟩

def tok0 : String := sign "change-me" ⟨1, 42⟩

def roleC : Role := ⟨7, "Cool-f3f9bc", 5, 3⟩

def memberR : Member := ⟨42, [roleC]⟩

def guildR : Guild := ⟨1, [roleC], [memberR], true, 10, 99⟩

/-! ## C4: applyColor (create_or_update_personal_role) -/

/-- Claim C4 (applyColor), amended: when the capability precheck passes and
no personal role is found, the engine creates exactly one role named
compose("NameColor", userId) with the requested colour, the empty permission
set, not hoisted and not mentionable, and attaches it to the user — with NO
repositioning call of any kind (the best-effort placement below the actor's
senior-most rank claimed by the spec does not exist in the code); when a
role is found it runs the guard and on success edits only the colour and
ensures attachment. -/
theorem claim_C4_amended (cfg : Config) (g : Guild) (m : Member) (rgb : Int)
    (hperm : g.botManageRoles = true) :
    (find_personal_role cfg.secret g m = none →
      create_or_update_personal_role cfg g m rgb =
        .ok ({ id := g.freshId,
               name := new_personal_name cfg.secret "NameColor" m.id,
               colour := rgb, rank := 1 },
          [DirOp.createRole (new_personal_name cfg.secret "NameColor" m.id)
             rgb true false false] ++
          (if memberHasRole m g.freshId then []
           else [DirOp.addRole m.id g.freshId]))) ∧
    (∀ r, find_personal_role cfg.secret g m = some r →
      create_or_update_personal_role cfg g m rgb =
        match ensure_manageable cfg g r with
        | .error e => .error e
        | .ok _ => .ok ({ r with colour := rgb },
            [DirOp.editColour r.id rgb] ++
            (if memberHasRole m r.id then []
             else [DirOp.addRole m.id r.id]))) := by
  unfold create_or_update_personal_role
  rw [hperm]
  constructor
  · intro hf
    rw [hf]
    rfl
  · intro r hf
    rw [hf]
    rfl

/-- Claim C4 as stated is false in its placement clause: a successful
creation run issues exactly a create and an attach — no repositioning
operation is ever attempted. -/
theorem claim_C4_counterexample :
    create_or_update_personal_role cfg0 guild1 member42 100 =
      .ok (⟨99, "NameColor-f3f9bc", 100, 1⟩,
        [.createRole "NameColor-f3f9bc" 100 true false false, .addRole 42 99]) ∧
    (create_or_update_personal_role cfg0 guild1 member42 100).toOption.map
      (fun p => p.2.any DirOp.isEditPosition) = some false := by
  decide

theorem claim_C4_witness :
    create_or_update_personal_role cfg0 guild1 member42 255 =
      .ok (⟨99, "NameColor-f3f9bc", 255, 1⟩,
        [.createRole "NameColor-f3f9bc" 255 true false false, .addRole 42 99]) :=
  ((claim_C4_amended cfg0 guild1 member42 255 (by decide)).1 (by decide)).trans
    (by decide)

/-! ## C5: rename -/

/-- Claim C5 (rename): a newBase that itself matches a suffix pattern is
rejected as a format error before anything else (in particular
"Cool-a1b2c3"), with no edit issued; otherwise the engine locates the role
(NotFound when absent), runs the guard, and edits the name to the recomposed
current-codec name. -/
theorem claim_C5_rename (cfg : Config) (g : Guild) (m : Member) (name : String) :
    (((idSearch name.data).isSome || (hashSearch name.data).isSome) = true →
      color_rename cfg g m name = .error .badFormat) ∧
    (((idSearch name.data).isSome || (hashSearch name.data).isSome) = false →
      find_personal_role cfg.secret g m = none →
      color_rename cfg g m name = .error .notFound) ∧
    (∀ r, ((idSearch name.data).isSome || (hashSearch name.data).isSome) = false →
      find_personal_role cfg.secret g m = some r →
      color_rename cfg g m name =
        match ensure_manageable cfg g r with
        | .error e => .error e
        | .ok _ =>
          .ok ({ r with name := new_personal_name cfg.secret name m.id },
            [DirOp.editName r.id (new_personal_name cfg.secret name m.id)])) ∧
    color_rename cfg g m "Cool-a1b2c3" = .error .badFormat := by
  refine ⟨?_, ?_, ?_, ?_⟩
  · intro hfmt
    unfold color_rename
    rw [if_pos hfmt]
  · intro hfmt hf
    unfold color_rename rename_personal_role
    rw [if_neg (by simp [hfmt]), hf]
  · intro r hfmt hf
    unfold color_rename rename_personal_role
    rw [if_neg (by simp [hfmt]), hf]
  · unfold color_rename
    rw [if_pos (by decide)]

theorem claim_C5_witness :
    color_rename cfg0 guildR memberR "Neat" =
      .ok (⟨7, "Neat-f3f9bc", 5, 3⟩, [.editName 7 "Neat-f3f9bc"]) := by
  have h := (claim_C5_rename cfg0 guildR memberR "Neat").2.2.1 roleC
    (by decide) (by decide)
  rw [h]
  decide

/-! ## C1: the POST /apply handler -/

/-- Claim C1 (POST /apply), amended: the handler does NOT validate that hex
is exactly 6 hex characters, and it parses the hex only after the token is
verified and the identity resolved: with a valid token and resolved guild
and member, a hex value rejected by int(hexv, 16) is answered with ok false
and msg "invalid hex" and no directory mutation, while any parsable hex
value — including the 2-character "12" — is accepted and passed to
applyColor, whose trace of mutations is issued. -/
theorem claim_C1_amended (cfg : Config) (st : BotState) (t hex : String)
    (i : Identity) (g : Guild) (m : Member)
    (hv : verify cfg.secret (pyStrip t) = some i)
    (hg : getGuild st i.g = some g)
    (hm : getMember g i.u = some m) :
    (pyIntBase16 (pyStrip (pyLstripHash hex)) = none →
      apply cfg st t hex = (⟨false, "invalid hex", 400, none, none⟩, [])) ∧
    (∀ n, pyIntBase16 (pyStrip (pyLstripHash hex)) = some n →
      apply cfg st t hex =
        match create_or_update_personal_role cfg g m n with
        | .error e => (⟨false, "apply error: " ++ errText e, 500, none, none⟩, [])
        | .ok (role, ops) =>
          (⟨true, "applied #" ++ pyLower (pyStrip (pyLstripHash hex)), 200,
            some role.name, some (pretty_role_name role.name)⟩, ops)) := by
  constructor
  · intro hpx
    unfold apply
    simp only [hv, hg, hm, hpx]
  · intro n hpx
    unfold apply
    simp only [hv, hg, hm, hpx]

/-- Claim C1 as stated is false: a request with a valid token and
hex = "12" is not answered with the invalid-hex error — the handler parses
"12" as colour 0x12 = 18 and issues the create and attach mutations. -/
theorem claim_C1_counterexample :
    apply cfg0 st0 tok0 "12" =
      (⟨true, "applied #12", 200, some "NameColor-f3f9bc", some "NameColor"⟩,
        [.createRole "NameColor-f3f9bc" 18 true false false, .addRole 42 99]) ∧
    apply cfg0 st0 tok0 "12" ≠ (⟨false, "invalid hex", 400, none, none⟩, []) := by
  decide

theorem claim_C1_witness :
    apply cfg0 st0 tok0 "zz" = (⟨false, "invalid hex", 400, none, none⟩, []) :=
  (claim_C1_amended cfg0 st0 tok0 "zz" ⟨1, 42⟩ guild1 member42
    (by decide) (by decide) (by decide)).1 (by decide)

/-! ## C10: visibleBase of a composed name -/

theorem dollarSplit_no_newline {l : List Char} {c : Char}
    (h : l.getLast? = some c) (hne : c ≠ '\n') : dollarSplit l = (l, []) := by
  unfold dollarSplit
  rw [h]
  simp [hne]

theorem takeWhile_append_le {p : Char → Bool} (l r : List Char) (x : Char)
    (hx : p x = false) : ((l ++ x :: r).takeWhile p).length ≤ l.length := by
  rw [List.takeWhile_append]
  split
  · rw [List.takeWhile_cons, hx]
    simp
  · exact List.Sublist.length_le (List.takeWhile_sublist p)

/-- Stripping the display suffix from a name composed of a base and the
6-hex-character hash suffix always recovers the base: the legacy pattern
cannot match (the trailing digit run is cut off by the hyphen at length at
most 6 < 15) and the current pattern matches exactly the hash run. -/
theorem pretty_strip_hash (T H : List Char)
    (hlen : H.length = 6) (hch : ∀ c ∈ H, c ∈ hexChars) :
    pretty_role_name ⟨T ++ '-' :: H⟩ = ⟨T⟩ := by
  have hrevN : (T ++ '-' :: H).reverse = H.reverse ++ '-' :: T.reverse := by
    rw [List.reverse_append, List.reverse_cons, List.append_assoc]
    rfl
  have hHne : H.reverse ≠ [] := by
    intro h
    have := congrArg List.length h
    rw [List.length_reverse, hlen] at this
    simp at this
  obtain ⟨c, rest, hrev⟩ := List.exists_cons_of_ne_nil hHne
  have hc_mem : c ∈ H := List.mem_reverse.1 (hrev ▸ List.mem_cons_self c rest)
  have hcx := hexChars_spec c (hch c hc_mem)
  have hlast : (T ++ '-' :: H).getLast? = some c := by
    rw [← List.head?_reverse, hrevN, hrev]
    rfl
  have hsplit : dollarSplit (T ++ '-' :: H) = (T ++ '-' :: H, []) :=
    dollarSplit_no_newline hlast hcx.2.1
  have hHrevLen : H.reverse.length = 6 := by
    rw [List.length_reverse, hlen]
  have hHrevMem : ∀ a ∈ H.reverse, hexCharCI a = true := by
    intro a ha
    exact (hexChars_spec a (hch a (List.mem_reverse.1 ha))).1
  have hIdNone : idSearch (T ++ '-' :: H) = none := by
    unfold idSearch suffixRunMatch
    rw [hsplit]
    simp only
    rw [hrevN]
    have hk := takeWhile_append_le H.reverse T.reverse '-'
      (show Char.isDigit '-' = false by decide)
    rw [hHrevLen] at hk
    rw [if_neg]
    intro hcond
    omega
  have htw : (H.reverse ++ '-' :: T.reverse).takeWhile hexCharCI = H.reverse :=
    takeWhile_append_stop hHrevMem (by decide)
  have hHashSix : hashSearch (T ++ '-' :: H) = some 6 := by
    unfold hashSearch suffixRunMatch
    rw [hsplit]
    simp only
    rw [hrevN, htw, hHrevLen]
    rw [if_pos]
    refine ⟨Nat.le_refl 6, Nat.le_refl 6, ?_⟩
    rw [List.drop_left' hHrevLen]
    rfl
  have hremove : suffixRunRemove (T ++ '-' :: H) 6 = T := by
    unfold suffixRunRemove
    rw [hsplit]
    simp only
    rw [hrevN]
    rw [show H.reverse ++ '-' :: T.reverse = (H.reverse ++ ['-']) ++ T.reverse by
        rw [List.append_assoc]
        rfl,
      List.drop_left' (by simp [hHrevLen])]
    simp
  unfold pretty_role_name
  simp only [hIdNone, hHashSix, hremove]

/-- Claim C10: for every secret, userId, and base whose stripped form does
not itself match the legacy or the current suffix pattern, the visible base
of the composed name is exactly the whitespace-stripped base truncated to 93
characters. -/
theorem claim_C10_visible_base (secret base : String) (uid : Nat)
    (_hid : idSearch (pyStrip base).data = none)
    (_hhash : hashSearch (pyStrip base).data = none) :
    pretty_role_name (new_personal_name secret base uid) =
      strTake (pyStrip base) 93 := by
  rw [new_personal_name_take93]
  have hname : strTake (pyStrip base) 93 ++ "-" ++ uid_hash6 secret uid =
      ⟨(strTake (pyStrip base) 93).data ++ '-' :: (uid_hash6 secret uid).data⟩ := by
    apply str_ext
    rw [str_data_append, str_data_append]
    show ((strTake (pyStrip base) 93).data ++ ['-']) ++ (uid_hash6 secret uid).data = _
    rw [List.append_assoc]
    rfl
  rw [hname, pretty_strip_hash _ _ (uid_hash6_length secret uid)
    (uid_hash6_chars secret uid)]

theorem claim_C10_witness :
    pretty_role_name (new_personal_name "change-me" "Cool" 42) = "Cool" :=
  (claim_C10_visible_base "change-me" "Cool" 42 (by decide) (by decide)).trans
    (by decide)

end ColorSync
